import Mathlib

/-
Verification of the OpenFaaS gateway client of this repository
(package `openfaas`, file `pkg/version/version.go` block after the version
metadata): the five client methods `InvokeSync`, `InvokeAsync`,
`HasNamespaceSupport`, `GetNamespaces` and `GetFunctions` of `Client`.

Modelling conventions (shallow embedding):
* The HTTP transport (`c.client.Do`) is an external collaborator.  Its
  outcome is a value of `Except String (Response β)`: `Except.error cause`
  models `err != nil` (with `res == nil`), `Except.ok res` models a
  delivered response.  `Response` carries the integer status code and the
  response body; Go's `http.Client` guarantees a non-nil `res.Body` on
  success, so a body is always present (the source's `res.Body != nil`
  guards are always taken).
* `ioutil.ReadAll` is modelled as returning the whole body (its ignored
  error is dropped, exactly as the source drops it with `output, _ = ...`).
* `json.Unmarshal` is an external collaborator.  Where only the outcome of
  the decode and the successfully decoded value are observable — in
  `HasNamespaceSupport`, whose 200 branch ignores the error and looks only
  at the resulting slice, and in `GetFunctions`, whose error branch never
  returns the slice — it is abstracted as `β → Option (List _)`.  In
  `GetNamespaces` the source returns the destination slice even when the
  decode failed, and Go fills that slice as best it can (an element type
  error in a body such as `["a",5]` leaves the non-empty partial slice
  `["a",""]` alongside the error), so there the decode is abstracted as
  `β → List String × Bool`: the slice exactly as the call left it, paired
  with `true` for a nil error and `false` for a decode error.
* Errors are modelled by the strings the source builds: `errors.New msg`
  becomes `OFError.simple msg`, `errors.Wrap`/`errors.Wrapf`
  (transport-level failures) become `OFError.wrapped annotation cause`.
* Each operation additionally reports what happened to the response body
  stream (`BodyUsage`): whether it was read to the end (`drained`) and
  whether a `defer res.Body.Close()` was registered (`closed`).  When the
  transport fails there is no response body, reported as `none`.
-/

/-- An HTTP response as the client sees it: status code plus body of type `β`
(raw bytes for invocation, JSON text for the discovery endpoints). -/
structure Response (β : Type) where
  statusCode : Nat
  body : β
deriving DecidableEq, Repr

/-- Message of `errors.New("OpenFaaS Credentials are invalid")`. -/
def authMessage : String := "OpenFaaS Credentials are invalid"

/-- Message of `fmt.Sprintf("Function %s is not deployed", name)`. -/
def notFoundMessage (name : String) : String :=
  "Function " ++ name ++ " is not deployed"

/-- Message of `fmt.Sprintf("Received unexpected Status Code %d", code)`. -/
def unexpectedStatusMessage (code : Nat) : String :=
  "Received unexpected Status Code " ++ toString code

/-- Errors returned by the client, at the granularity the source produces
them: `simple` is `errors.New`, `wrapped` is `errors.Wrap`/`errors.Wrapf`
around an underlying transport cause. -/
inductive OFError where
  | simple (message : String) : OFError
  | wrapped ( annotation : String) (cause : String) : OFError
deriving DecidableEq, Repr

/-- The spec's AuthenticationError: the exact error the source builds on a
401 response. -/
def isAuthenticationError (e : OFError) : Bool :=
  e == OFError.simple authMessage

/-- The spec's NotFoundError for a given function name. -/
def isNotFoundError (name : String) (e : OFError) : Bool :=
  e == OFError.simple (notFoundMessage name)

/-- The spec's UnexpectedStatusError carrying a status code. -/
def isUnexpectedStatusError (code : Nat) (e : OFError) : Bool :=
  e == OFError.simple (unexpectedStatusMessage code)

/-- The spec's TransportError: a wrapped underlying cause. -/
def isTransportError (e : OFError) : Bool :=
  match e with
  | OFError.wrapped _ _ => true
  | OFError.simple _ => false

/-- What an operation did to the response body stream before returning. -/
structure BodyUsage where
  drained : Bool
  closed : Bool
deriving DecidableEq, Repr

/-- `Client.InvokeSync` from the transport call onward (`res, err :=
c.client.Do(req)` at line 116): wrap a transport failure; otherwise read the
full body under a deferred close, then classify by status code exactly as
the source's `switch`. -/
def InvokeSync {β : Type} (name : String) (doRes : Except String (Response β)) :
    Except OFError β × Option BodyUsage :=
  match doRes with
  | Except.error cause =>
      (Except.error (OFError.wrapped ("unable to invoke function " ++ name) cause), none)
  | Except.ok res =>
      let usage : BodyUsage := { drained := true, closed := true }
      let output := res.body
      if res.statusCode = 200 then (Except.ok output, some usage)
      else if res.statusCode = 401 then
        (Except.error (OFError.simple authMessage), some usage)
      else if res.statusCode = 404 then
        (Except.error (OFError.simple (notFoundMessage name)), some usage)
      else
        (Except.error (OFError.simple (unexpectedStatusMessage res.statusCode)), some usage)

/-- `Client.InvokeAsync` from the transport call onward: wrap a transport
failure; otherwise register the deferred close (the body is never read) and
classify by status code, with 202 as the accepted case. -/
def InvokeAsync {β : Type} (name : String) (doRes : Except String (Response β)) :
    Except OFError Bool × Option BodyUsage :=
  match doRes with
  | Except.error cause =>
      (Except.error (OFError.wrapped ("unable to invoke function " ++ name) cause), none)
  | Except.ok res =>
      let usage : BodyUsage := { drained := false, closed := true }
      if res.statusCode = 202 then (Except.ok true, some usage)
      else if res.statusCode = 401 then
        (Except.error (OFError.simple authMessage), some usage)
      else if res.statusCode = 404 then
        (Except.error (OFError.simple (notFoundMessage name)), some usage)
      else
        (Except.error (OFError.simple (unexpectedStatusMessage res.statusCode)), some usage)

/-- `Client.HasNamespaceSupport` from the transport call onward: wrap a
transport failure; otherwise, on 200, read and decode the body (a failed
decode leaves the slice empty; the decode error is never returned) and
report non-emptiness; on 401 fail; on anything else report `false` with no
error. -/
def HasNamespaceSupport {β : Type} (doRes : Except String (Response β))
    (unmarshalStrings : β → Option (List String)) :
    Except OFError Bool × Option BodyUsage :=
  match doRes with
  | Except.error cause =>
      (Except.error (OFError.wrapped "unable to determine namespace support" cause), none)
  | Except.ok res =>
      if res.statusCode = 200 then
        let namespaces := (unmarshalStrings res.body).getD []
        (Except.ok (decide (0 < namespaces.length)), some { drained := true, closed := true })
      else if res.statusCode = 401 then
        (Except.error (OFError.simple authMessage), some { drained := false, closed := true })
      else
        (Except.ok false, some { drained := false, closed := true })

/-- `Client.GetNamespaces` from the transport call onward: wrap a transport
failure; otherwise read the full body and decode it (`unmarshalStrings`
yields the destination slice exactly as `json.Unmarshal` left it — possibly
partially populated — paired with whether the decode succeeded): when the
decode errored, return `AuthenticationError` on a 401 and otherwise that
(partially-decoded) slice with no error; on success return the slice with no
error. -/
def GetNamespaces {β : Type} (doRes : Except String (Response β))
    (unmarshalStrings : β → List String × Bool) :
    Except OFError (List String) × Option BodyUsage :=
  match doRes with
  | Except.error cause =>
      (Except.error (OFError.wrapped "unable to obtain namespaces" cause), none)
  | Except.ok res =>
      let usage : BodyUsage := { drained := true, closed := true }
      let namespaces := (unmarshalStrings res.body).1
      if (unmarshalStrings res.body).2 = false then
        if res.statusCode = 401 then
          (Except.error (OFError.simple authMessage), some usage)
        else
          (Except.ok namespaces, some usage)
      else
        (Except.ok namespaces, some usage)

/-- `Client.GetFunctions` from the transport call onward (`γ` stands for the
pass-through `types.FunctionStatus` record): wrap a transport failure;
otherwise read the full body, decode it, and: on success return the list; on
decode failure return `AuthenticationError` when the status is 401 and
otherwise `UnexpectedStatusError` carrying the status code. -/
def GetFunctions {β γ : Type} (doRes : Except String (Response β))
    (unmarshalFunctions : β → Option (List γ)) :
    Except OFError (List γ) × Option BodyUsage :=
  match doRes with
  | Except.error cause =>
      (Except.error (OFError.wrapped "unable to obtain functions" cause), none)
  | Except.ok res =>
      let usage : BodyUsage := { drained := true, closed := true }
      match unmarshalFunctions res.body with
      | some functions => (Except.ok functions, some usage)
      | none =>
          if res.statusCode = 401 then
            (Except.error (OFError.simple authMessage), some usage)
          else
            (Except.error (OFError.simple (unexpectedStatusMessage res.statusCode)), some usage)

/-- Claim C1: for every function name and every payload, `InvokeSync`
against a gateway response with status 200 returns exactly the full response
body as raw bytes, unmodified and not interpreted as JSON, with no error. -/
theorem InvokeSync_status200_returns_raw_body (name : String) (body : List Nat) :
    (InvokeSync name (Except.ok { statusCode := 200, body := body })).1 = Except.ok body := by
  simp [InvokeSync]

/-- Claim C2: for both invocation operations and every function name and
response body, status 401 fails with AuthenticationError independent of body
content; status 404 fails with NotFoundError identifying the function name;
any other status outside the operation's success code fails with
UnexpectedStatusError carrying the numeric status code. -/
theorem invoke_status_error_classification (name : String) (body : List Nat) (code : Nat) :
    ((InvokeSync name (Except.ok { statusCode := 401, body := body })).1
        = Except.error (OFError.simple authMessage))
    ∧ ((InvokeAsync name (Except.ok { statusCode := 401, body := body })).1
        = Except.error (OFError.simple authMessage))
    ∧ ((InvokeSync name (Except.ok { statusCode := 404, body := body })).1
        = Except.error (OFError.simple (notFoundMessage name)))
    ∧ ((InvokeAsync name (Except.ok { statusCode := 404, body := body })).1
        = Except.error (OFError.simple (notFoundMessage name)))
    ∧ (code ≠ 200 → code ≠ 401 → code ≠ 404 →
        (InvokeSync name (Except.ok { statusCode := code, body := body })).1
          = Except.error (OFError.simple (unexpectedStatusMessage code)))
    ∧ (code ≠ 202 → code ≠ 401 → code ≠ 404 →
        (InvokeAsync name (Except.ok { statusCode := code, body := body })).1
          = Except.error (OFError.simple (unexpectedStatusMessage code))) := by
  refine ⟨by simp [InvokeSync], by simp [InvokeAsync], by simp [InvokeSync],
    by simp [InvokeAsync], ?_, ?_⟩
  · intro h200 h401 h404
    simp [InvokeSync, h200, h401, h404]
  · intro h202 h401 h404
    simp [InvokeAsync, h202, h401, h404]

/-- Witness for C2 at function "echo", body [1, 2], status 500. -/
theorem invoke_status_error_classification_witness :
    (InvokeSync "echo" (Except.ok { statusCode := 500, body := [1, 2] })).1
      = Except.error (OFError.simple (unexpectedStatusMessage 500))
    ∧ (InvokeAsync "echo" (Except.ok { statusCode := 500, body := ([1, 2] : List Nat) })).1
      = Except.error (OFError.simple (unexpectedStatusMessage 500)) := by
  have h := invoke_status_error_classification "echo" [1, 2] 500
  exact ⟨h.2.2.2.2.1 (by decide) (by decide) (by decide),
    h.2.2.2.2.2 (by decide) (by decide) (by decide)⟩

/-- Claim C3: `HasNamespaceSupport` on status 200 returns true exactly when
the body decodes to a non-empty list of namespace names, a malformed body
being treated as an empty result (false with no error); on 401 it fails with
AuthenticationError; on every other status it returns false with no error. -/
theorem HasNamespaceSupport_classification {β : Type}
    (unmarshalStrings : β → Option (List String)) (body : β) (xs : List String) (code : Nat) :
    (unmarshalStrings body = some xs →
      (HasNamespaceSupport (Except.ok { statusCode := 200, body := body }) unmarshalStrings).1
        = Except.ok (decide (xs ≠ [])))
    ∧ (unmarshalStrings body = none →
      (HasNamespaceSupport (Except.ok { statusCode := 200, body := body }) unmarshalStrings).1
        = Except.ok false)
    ∧ ((HasNamespaceSupport (Except.ok { statusCode := 401, body := body }) unmarshalStrings).1
        = Except.error (OFError.simple authMessage))
    ∧ (code ≠ 200 → code ≠ 401 →
      (HasNamespaceSupport (Except.ok { statusCode := code, body := body }) unmarshalStrings).1
        = Except.ok false) := by
  refine ⟨?_, ?_, by simp [HasNamespaceSupport], ?_⟩
  · intro h
    simp [HasNamespaceSupport, h, List.length_pos]
  · intro h
    simp [HasNamespaceSupport, h]
  · intro h200 h401
    simp [HasNamespaceSupport, h200, h401]

/-- Witness for C3: decoded ["prod", "staging"] on 200 gives true; a decode
failure on 200 gives false; status 500 gives false. -/
theorem HasNamespaceSupport_classification_witness :
    (HasNamespaceSupport (Except.ok { statusCode := 200, body := () })
        (fun _ => some ["prod", "staging"])).1 = Except.ok true
    ∧ (HasNamespaceSupport (Except.ok { statusCode := 200, body := () })
        (fun _ => none)).1 = Except.ok false
    ∧ (HasNamespaceSupport (Except.ok { statusCode := 500, body := () })
        (fun _ => some ["prod", "staging"])).1 = Except.ok false := by
  refine ⟨?_, ?_, ?_⟩
  · have h := HasNamespaceSupport_classification
      (fun _ : Unit => some ["prod", "staging"]) () ["prod", "staging"] 500
    simpa using h.1 rfl
  · have h := HasNamespaceSupport_classification
      (fun _ : Unit => (none : Option (List String))) () [] 500
    simpa using h.2.1 rfl
  · have h := HasNamespaceSupport_classification
      (fun _ : Unit => some ["prod", "staging"]) () ["prod", "staging"] 500
    exact h.2.2.2 (by decide) (by decide)

/-- Claim C4 counterexample: a 500 response whose body `["a",5]` fails to
decode — Go's `json.Unmarshal` reports the element type error but fills the
destination slice as best it can, leaving `["a",""]` — makes `GetNamespaces`
return that non-empty partial slice with no error, not the empty list the
claim states. -/
theorem GetNamespaces_decode_failure_not_empty :
    ¬ ((GetNamespaces (Except.ok { statusCode := 500, body := () })
        (fun _ => (["a", ""], false))).1 = Except.ok []) := by
  simp [GetNamespaces]

/-- Claim C4 (amended): `GetNamespaces` returns the decoded list (possibly
empty) with no error whenever decoding succeeds, regardless of status; when
decoding fails on a 401 it fails with AuthenticationError; when decoding
fails on any other status it returns the partially-decoded slice exactly as
`json.Unmarshal` left it (possibly non-empty) with no error. -/
theorem GetNamespaces_classification {β : Type}
    (unmarshalStrings : β → List String × Bool) (body : β) (xs : List String) (code : Nat) :
    (unmarshalStrings body = (xs, true) →
      (GetNamespaces (Except.ok { statusCode := code, body := body }) unmarshalStrings).1
        = Except.ok xs)
    ∧ (unmarshalStrings body = (xs, false) →
      (GetNamespaces (Except.ok { statusCode := 401, body := body }) unmarshalStrings).1
        = Except.error (OFError.simple authMessage))
    ∧ (unmarshalStrings body = (xs, false) → code ≠ 401 →
      (GetNamespaces (Except.ok { statusCode := code, body := body }) unmarshalStrings).1
        = Except.ok xs) := by
  refine ⟨?_, ?_, ?_⟩
  · intro h
    simp [GetNamespaces, h]
  · intro h
    simp [GetNamespaces, h]
  · intro h h401
    simp [GetNamespaces, h, h401]

/-- Witness for C4: a 200 response decoding to ["a", "b"] yields exactly
["a", "b"]; a decode failure on 500 that left the partial slice ["a", ""]
yields that slice with no error. -/
theorem GetNamespaces_classification_witness :
    (GetNamespaces (Except.ok { statusCode := 200, body := () })
        (fun _ => (["a", "b"], true))).1 = Except.ok ["a", "b"]
    ∧ (GetNamespaces (Except.ok { statusCode := 500, body := () })
        (fun _ => (["a", ""], false))).1 = Except.ok ["a", ""] := by
  refine ⟨?_, ?_⟩
  · exact (GetNamespaces_classification (fun _ : Unit => (["a", "b"], true)) ()
      ["a", "b"] 200).1 rfl
  · exact (GetNamespaces_classification (fun _ : Unit => (["a", ""], false)) ()
      ["a", ""] 500).2.2 rfl (by decide)

/-- Claim C5: `GetFunctions` returns the decoded sequence of FunctionStatus
records with no error whenever decoding succeeds, regardless of status; when
decoding fails on a 401 it fails with AuthenticationError; when decoding
fails on any other status (200 included) it fails with UnexpectedStatusError
carrying that status code. -/
theorem GetFunctions_classification {β γ : Type}
    (unmarshalFunctions : β → Option (List γ)) (body : β) (xs : List γ) (code : Nat) :
    (unmarshalFunctions body = some xs →
      (GetFunctions (Except.ok { statusCode := code, body := body }) unmarshalFunctions).1
        = Except.ok xs)
    ∧ (unmarshalFunctions body = none →
      (GetFunctions (Except.ok { statusCode := 401, body := body }) unmarshalFunctions).1
        = Except.error (OFError.simple authMessage))
    ∧ (unmarshalFunctions body = none → code ≠ 401 →
      (GetFunctions (Except.ok { statusCode := code, body := body }) unmarshalFunctions).1
        = Except.error (OFError.simple (unexpectedStatusMessage code))) := by
  refine ⟨?_, ?_, ?_⟩
  · intro h
    simp [GetFunctions, h]
  · intro h
    simp [GetFunctions, h]
  · intro h h401
    simp [GetFunctions, h, h401]

/-- Witness for C5: a successful decode on 304 passes the records through; a
decode failure on 200 yields UnexpectedStatusError carrying 200. -/
theorem GetFunctions_classification_witness :
    (GetFunctions (Except.ok { statusCode := 304, body := () })
        (fun _ => some ["fnA", "fnB"])).1 = Except.ok ["fnA", "fnB"]
    ∧ (GetFunctions (Except.ok { statusCode := 200, body := () })
        (fun _ => (none : Option (List String)))).1
      = Except.error (OFError.simple (unexpectedStatusMessage 200)) := by
  refine ⟨?_, ?_⟩
  · exact (GetFunctions_classification (fun _ : Unit => some ["fnA", "fnB"]) () ["fnA", "fnB"] 304).1
      rfl
  · exact (GetFunctions_classification (fun _ : Unit => (none : Option (List String))) () [] 200).2.2
      rfl (by decide)

/-- Claim C6: `InvokeAsync` returns true with no error exactly when the
gateway responds with status 202; any other 2xx status (such as 200 or 204)
yields UnexpectedStatusError, not acceptance. -/
theorem InvokeAsync_accepted_iff_202 {β : Type} (name : String) (body : β) (code : Nat) :
    ((InvokeAsync name (Except.ok { statusCode := code, body := body })).1 = Except.ok true
      ↔ code = 202)
    ∧ (200 ≤ code → code < 300 → code ≠ 202 →
      (InvokeAsync name (Except.ok { statusCode := code, body := body })).1
        = Except.error (OFError.simple (unexpectedStatusMessage code))) := by
  constructor
  · constructor
    · intro h
      by_contra hne
      by_cases h401 : code = 401
      · simp [InvokeAsync, hne, h401] at h
      · by_cases h404 : code = 404
        · simp [InvokeAsync, hne, h401, h404] at h
        · simp [InvokeAsync, hne, h401, h404] at h
    · intro h
      simp [InvokeAsync, h]
  · intro hlo hhi h202
    have h401 : code ≠ 401 := by omega
    have h404 : code ≠ 404 := by omega
    simp [InvokeAsync, h202, h401, h404]

/-- Witness for C6 at status 200 and at status 204 with body (), name
"echo": 202 accepts, 200 and 204 yield UnexpectedStatusError. -/
theorem InvokeAsync_accepted_iff_202_witness :
    ((InvokeAsync "echo" (Except.ok { statusCode := 202, body := () })).1 = Except.ok true)
    ∧ ((InvokeAsync "echo" (Except.ok { statusCode := 200, body := () })).1
        = Except.error (OFError.simple (unexpectedStatusMessage 200)))
    ∧ ((InvokeAsync "echo" (Except.ok { statusCode := 204, body := () })).1
        = Except.error (OFError.simple (unexpectedStatusMessage 204))) := by
  refine ⟨?_, ?_, ?_⟩
  · exact (InvokeAsync_accepted_iff_202 "echo" () 202).1.2 rfl
  · exact (InvokeAsync_accepted_iff_202 "echo" () 200).2 (by decide) (by decide) (by decide)
  · exact (InvokeAsync_accepted_iff_202 "echo" () 204).2 (by decide) (by decide) (by decide)

/-- UTF-8 encoding of one character, as the byte values Go iterates over
when escaping a query component. -/
def utf8Bytes (c : Char) : List Nat :=
  if c.toNat < 128 then [c.toNat]
  else if c.toNat < 2048 then [192 + c.toNat / 64, 128 + c.toNat % 64]
  else if c.toNat < 65536 then
    [224 + c.toNat / 4096, 128 + (c.toNat / 64) % 64, 128 + c.toNat % 64]
  else
    [240 + c.toNat / 262144, 128 + (c.toNat / 4096) % 64, 128 + (c.toNat / 64) % 64,
      128 + c.toNat % 64]

/-- Uppercase hexadecimal digit, as Go's escaping emits. -/
def upperHexDigit (n : Nat) : Char :=
  if n < 10 then Char.ofNat (48 + n) else Char.ofNat (55 + n)

/-- Go `url.QueryEscape` on one byte: ASCII letters, digits and `-_.~` kept,
space turned into `+`, every other byte percent-encoded. -/
def escapeByte (b : Nat) : List Char :=
  if (65 ≤ b ∧ b ≤ 90) ∨ (97 ≤ b ∧ b ≤ 122) ∨ (48 ≤ b ∧ b ≤ 57)
      ∨ b = 45 ∨ b = 95 ∨ b = 46 ∨ b = 126 then
    [Char.ofNat b]
  else if b = 32 then ['+']
  else ['%', upperHexDigit (b / 16), upperHexDigit (b % 16)]

/-- Go `url.QueryEscape` of a string, over its UTF-8 bytes, as a character
list. -/
def queryEscapeChars (s : String) : List Char :=
  (s.data.flatMap utf8Bytes).flatMap escapeByte

/-- Go `url.QueryEscape` of a string. -/
def queryEscape (s : String) : String :=
  String.mk (queryEscapeChars s)

/-- The components of a URL the client manipulates: path part and raw query
string. -/
structure RequestURL where
  path : String
  rawQuery : String
deriving DecidableEq, Repr

/-- Split of a character list on a separator (the shape `net/url` uses for
`&`-separated query components): no separator yields the single whole
component. -/
def splitOnChar (sep : Char) : List Char → List (List Char)
  | [] => [[]]
  | c :: cs =>
      let rest := splitOnChar sep cs
      if c = sep then [] :: rest
      else (c :: rest.headD []) :: rest.tail

/-- Key of one `&`-component of a raw query: the characters before the first
`=` (as Go's query parsing reads it). -/
def queryKey (comp : List Char) : List Char :=
  comp.takeWhile (fun c => c != '=')

/-- Go `url.URL.Query()` as an ordered list of key/value pairs.  Percent
unescaping is omitted: the client only ever calls this on an empty raw query
(its base URL carries no query component), where the two agree exactly. -/
def parseQuery (rawQuery : String) : List (String × String) :=
  if rawQuery.data = [] then []
  else (splitOnChar '&' rawQuery.data).map
    (fun comp =>
      (String.mk (queryKey comp),
        String.mk ((comp.dropWhile (fun c => c != '=')).drop 1)))

/-- Go `url.Values.Encode` over an ordered pair list: percent-encode key and
value and join with `&`.  Go sorts by key; the client encodes at most one
pair, where sorting is the identity and is omitted. -/
def encodeQuery : List (String × String) → String
  | [] => ""
  | [kv] => queryEscape kv.1 ++ "=" ++ queryEscape kv.2
  | kv :: rest => queryEscape kv.1 ++ "=" ++ queryEscape kv.2 ++ "&" ++ encodeQuery rest

/-- Go `url.Parse` on the request target, reduced to the parts the client
touches: everything before the first `?` is the path part, everything after
it the raw query. -/
def parseRequestTarget (target : String) : RequestURL :=
  { path := String.mk (target.data.takeWhile (fun c => c != '?')),
    rawQuery := String.mk ((target.data.dropWhile (fun c => c != '?')).drop 1) }

/-- The namespace-attachment step of `Client.GetFunctions` (lines 257-261):
when the caller supplies a non-empty namespace, re-encode the request query
with `namespace` added; otherwise leave the URL untouched. -/
def attachNamespace (url : RequestURL) (nameSpace : String) : RequestURL :=
  if 0 < nameSpace.length then
    { url with rawQuery := encodeQuery (parseQuery url.rawQuery ++ [("namespace", nameSpace)]) }
  else url

/-- The URL `Client.GetFunctions` sends: `<baseURL>/system/functions` as
parsed by request construction, with the namespace query attached per the
source. -/
def GetFunctionsURL (baseURL nameSpace : String) : RequestURL :=
  attachNamespace (parseRequestTarget (baseURL ++ "/system/functions")) nameSpace

/-- Number of `&`-separated components of a raw query whose key is the given
name (zero for the empty query, which has no components at all). -/
def queryParamCount (rawQuery : String) (key : String) : Nat :=
  if rawQuery.data = [] then 0
  else ((splitOnChar '&' rawQuery.data).filter
    (fun comp => queryKey comp == key.data)).length

/-- Every Unicode scalar value is below 0x110000. -/
theorem char_toNat_lt (c : Char) : c.toNat < 1114112 := by
  have h := c.valid
  rcases h with h | h
  · exact Nat.lt_trans h (by norm_num)
  · exact h.2

/-- UTF-8 encoding produces byte values. -/
theorem utf8Bytes_lt_256 (c : Char) : ∀ b ∈ utf8Bytes c, b < 256 := by
  intro b hb
  have hc := char_toNat_lt c
  unfold utf8Bytes at hb
  split_ifs at hb with h1 h2 h3
  · simp at hb
    omega
  · have hd : c.toNat / 64 < 32 := by omega
    have hm : c.toNat % 64 < 64 := Nat.mod_lt _ (by norm_num)
    simp at hb
    omega
  · have hd : c.toNat / 4096 < 16 := by omega
    have hm1 : (c.toNat / 64) % 64 < 64 := Nat.mod_lt _ (by norm_num)
    have hm2 : c.toNat % 64 < 64 := Nat.mod_lt _ (by norm_num)
    simp at hb
    omega
  · have hd : c.toNat / 262144 < 5 := by omega
    have hm1 : (c.toNat / 4096) % 64 < 64 := Nat.mod_lt _ (by norm_num)
    have hm2 : (c.toNat / 64) % 64 < 64 := Nat.mod_lt _ (by norm_num)
    have hm3 : c.toNat % 64 < 64 := Nat.mod_lt _ (by norm_num)
    simp at hb
    omega

set_option maxRecDepth 8192 in
/-- A query-escaped byte never contains the separators `&` or `=`. -/
theorem escapeByte_no_sep :
    ∀ b : Fin 256, '&' ∉ escapeByte b.val ∧ '=' ∉ escapeByte b.val := by decide

/-- A query-escaped string never contains the separators `&` or `=`. -/
theorem queryEscapeChars_no_sep (s : String) :
    '&' ∉ queryEscapeChars s ∧ '=' ∉ queryEscapeChars s := by
  constructor <;>
  · intro hmem
    unfold queryEscapeChars at hmem
    rw [List.mem_flatMap] at hmem
    obtain ⟨b, hb, hcb⟩ := hmem
    rw [List.mem_flatMap] at hb
    obtain ⟨c, _, hbc⟩ := hb
    have hlt : b < 256 := utf8Bytes_lt_256 c b hbc
    first
    | exact (escapeByte_no_sep ⟨b, hlt⟩).1 hcb
    | exact (escapeByte_no_sep ⟨b, hlt⟩).2 hcb

/-- Splitting a list that contains no separator yields the single whole
component. -/
theorem splitOnChar_eq_single (sep : Char) (l : List Char) (h : sep ∉ l) :
    splitOnChar sep l = [l] := by
  induction l with
  | nil => rfl
  | cons c cs ih =>
      have hc : ¬(c = sep) := fun e => h (e ▸ List.mem_cons_self c cs)
      have hcs : sep ∉ cs := fun hm => h (List.mem_cons_of_mem _ hm)
      simp [splitOnChar, hc, ih hcs]

/-- `takeWhile` stops exactly at the first failing element. -/
theorem takeWhile_append_stop (p : Char → Bool) (stop : Char) (hstop : p stop = false) :
    ∀ (xs ys : List Char), (∀ c ∈ xs, p c = true) →
      List.takeWhile p (xs ++ stop :: ys) = xs := by
  intro xs
  induction xs with
  | nil =>
      intro ys _
      simp [List.takeWhile, hstop]
  | cons x xs ih =>
      intro ys h
      have hx : p x = true := h x (List.mem_cons_self x xs)
      simp [List.takeWhile, hx, ih ys (fun c hc => h c (List.mem_cons_of_mem _ hc))]

/-- `dropWhile` over a list all of whose elements pass is empty. -/
theorem dropWhile_all_eq_nil (p : Char → Bool) :
    ∀ l : List Char, (∀ c ∈ l, p c = true) → List.dropWhile p l = [] := by
  intro l
  induction l with
  | nil => intro _; rfl
  | cons c cs ih =>
      intro h
      simp [List.dropWhile, h c (List.mem_cons_self c cs),
        ih (fun d hd => h d (List.mem_cons_of_mem _ hd))]

/-- Characters of a concatenation. -/
theorem string_data_append (s t : String) : (s ++ t).data = s.data ++ t.data := by
  cases s
  cases t
  rfl

/-- Claim C7: `GetFunctions` attaches a `namespace` query parameter to the
request URL exactly once, URL-encoded, exactly when the caller supplies a
non-empty namespace; with an empty namespace the URL carries no query
parameter at all (for a base URL with no query component of its own, the
shape this client is configured with). -/
theorem GetFunctions_namespace_query_param (baseURL nameSpace : String)
    (hbase : '?' ∉ baseURL.data) :
    (nameSpace ≠ "" →
      (GetFunctionsURL baseURL nameSpace).rawQuery = "namespace=" ++ queryEscape nameSpace
      ∧ queryParamCount (GetFunctionsURL baseURL nameSpace).rawQuery "namespace" = 1)
    ∧ (nameSpace = "" → (GetFunctionsURL baseURL nameSpace).rawQuery = "") := by
  have hsuffix : ∀ c ∈ "/system/functions".data, (c != '?') = true := by decide
  have htarget : ∀ c ∈ (baseURL ++ "/system/functions").data, (c != '?') = true := by
    intro c hc
    rw [string_data_append] at hc
    rcases List.mem_append.mp hc with h | h
    · simp only [bne_iff_ne, ne_eq]
      intro e
      exact hbase (e ▸ h)
    · exact hsuffix c h
  have hraw : (parseRequestTarget (baseURL ++ "/system/functions")).rawQuery = "" := by
    show String.mk
      (((baseURL ++ "/system/functions").data.dropWhile (fun c => c != '?')).drop 1) = ""
    rw [dropWhile_all_eq_nil _ _ htarget]
    rfl
  constructor
  · intro hns
    have hlen : 0 < nameSpace.length := by
      cases nameSpace with
      | mk l =>
        cases l with
        | nil => exact absurd rfl hns
        | cons a as => simp [String.length]
    have hurl : (GetFunctionsURL baseURL nameSpace).rawQuery
        = encodeQuery (parseQuery "" ++ [("namespace", nameSpace)]) := by
      unfold GetFunctionsURL attachNamespace
      rw [if_pos hlen]
      simp only
      rw [hraw]
    have hpq : parseQuery "" = [] := rfl
    rw [hpq, List.nil_append] at hurl
    have henc : encodeQuery [("namespace", nameSpace)]
        = queryEscape "namespace" ++ "=" ++ queryEscape nameSpace := rfl
    have hqe : queryEscape "namespace" = "namespace" := by decide
    have hlit : ("namespace" ++ "=" : String) = "namespace=" := by decide
    have hq : (GetFunctionsURL baseURL nameSpace).rawQuery
        = "namespace=" ++ queryEscape nameSpace := by
      rw [hurl, henc, hqe, hlit]
    refine ⟨hq, ?_⟩
    have hdata : ("namespace=" ++ queryEscape nameSpace).data
        = "namespace=".data ++ queryEscapeChars nameSpace := by
      rw [string_data_append]
      rfl
    have hchars : "namespace=".data = ['n', 'a', 'm', 'e', 's', 'p', 'a', 'c', 'e', '='] := by
      decide
    have hamp : '&' ∉ ("namespace=" ++ queryEscape nameSpace).data := by
      rw [hdata]
      intro hm
      rcases List.mem_append.mp hm with h | h
      · revert h
        decide
      · exact (queryEscapeChars_no_sep nameSpace).1 h
    have hsplit : splitOnChar '&' ("namespace=" ++ queryEscape nameSpace).data
        = [("namespace=" ++ queryEscape nameSpace).data] :=
      splitOnChar_eq_single '&' _ hamp
    have hkey : queryKey ("namespace=" ++ queryEscape nameSpace).data = "namespace".data := by
      rw [queryKey, hdata, hchars]
      show List.takeWhile (fun c => c != '=')
        (['n', 'a', 'm', 'e', 's', 'p', 'a', 'c', 'e'] ++ '=' :: queryEscapeChars nameSpace)
        = "namespace".data
      rw [takeWhile_append_stop (fun c => c != '=') '=' (by decide) _ _ (by decide)]
    have hne : ("namespace=" ++ queryEscape nameSpace).data ≠ [] := by
      rw [hdata, hchars]
      simp
    rw [hq]
    simp only [queryParamCount]
    rw [if_neg hne, hsplit]
    generalize hGen : ("namespace=" ++ queryEscape nameSpace).data = L at hkey ⊢
    simp [List.filter, hkey]
  · intro h
    subst h
    unfold GetFunctionsURL attachNamespace
    rw [if_neg (by decide)]
    exact hraw

/-- Witness for C7 at base URL "http://gateway:8080" and namespace "dev ns"
(whose space is URL-encoded as +), plus the empty namespace. -/
theorem GetFunctions_namespace_query_param_witness :
    (GetFunctionsURL "http://gateway:8080" "dev ns").rawQuery = "namespace=dev+ns"
    ∧ queryParamCount (GetFunctionsURL "http://gateway:8080" "dev ns").rawQuery "namespace" = 1
    ∧ (GetFunctionsURL "http://gateway:8080" "").rawQuery = "" := by
  have h := GetFunctions_namespace_query_param "http://gateway:8080" "dev ns" (by decide)
  have h0 := GetFunctions_namespace_query_param "http://gateway:8080" "" (by decide)
  refine ⟨?_, (h.1 (by decide)).2, h0.2 rfl⟩
  rw [(h.1 (by decide)).1]
  decide

/-- Claim C8: in every operation transport-level failure is classified
first, as a TransportError wrapping the cause with no status-code or decode
handling performed, and each operation's explicit 401 handling fires ahead
of its residual success/other-status classification. -/
theorem classification_precedence {β γ : Type} (name cause : String) (body : β)
    (unmarshalStrings : β → Option (List String))
    (unmarshalNamespaces : β → List String × Bool)
    (unmarshalFunctions : β → Option (List γ)) :
    ((InvokeSync name (Except.error cause : Except String (Response β))).1
        = Except.error (OFError.wrapped ("unable to invoke function " ++ name) cause))
    ∧ ((InvokeAsync name (Except.error cause : Except String (Response β))).1
        = Except.error (OFError.wrapped ("unable to invoke function " ++ name) cause))
    ∧ ((HasNamespaceSupport (Except.error cause) unmarshalStrings).1
        = Except.error (OFError.wrapped "unable to determine namespace support" cause))
    ∧ ((GetNamespaces (Except.error cause) unmarshalNamespaces).1
        = Except.error (OFError.wrapped "unable to obtain namespaces" cause))
    ∧ ((GetFunctions (Except.error cause) unmarshalFunctions).1
        = Except.error (OFError.wrapped "unable to obtain functions" cause))
    ∧ ((InvokeSync name (Except.ok { statusCode := 401, body := body })).1
        = Except.error (OFError.simple authMessage))
    ∧ ((InvokeAsync name (Except.ok { statusCode := 401, body := body })).1
        = Except.error (OFError.simple authMessage))
    ∧ ((HasNamespaceSupport (Except.ok { statusCode := 401, body := body })
          unmarshalStrings).1 = Except.error (OFError.simple authMessage))
    ∧ ((unmarshalNamespaces body).2 = false →
        (GetNamespaces (Except.ok { statusCode := 401, body := body }) unmarshalNamespaces).1
          = Except.error (OFError.simple authMessage))
    ∧ (unmarshalFunctions body = none →
        (GetFunctions (Except.ok { statusCode := 401, body := body }) unmarshalFunctions).1
          = Except.error (OFError.simple authMessage)) := by
  refine ⟨rfl, rfl, rfl, rfl, rfl, by simp [InvokeSync], by simp [InvokeAsync],
    by simp [HasNamespaceSupport], ?_, ?_⟩
  · intro h
    simp [GetNamespaces, h]
  · intro h
    simp [GetFunctions, h]

/-- Witness for C8: a refused connection surfaces as the wrapped transport
error, and a 401 with an undecodable body is classified as the
authentication error in the listing operations. -/
theorem classification_precedence_witness :
    ((InvokeSync "echo" (Except.error "connection refused" : Except String (Response Unit))).1
        = Except.error (OFError.wrapped ("unable to invoke function " ++ "echo")
            "connection refused"))
    ∧ ((GetNamespaces (Except.ok { statusCode := 401, body := () })
          (fun _ => (([] : List String), false))).1
        = Except.error (OFError.simple authMessage))
    ∧ ((GetFunctions (Except.ok { statusCode := 401, body := () })
          (fun _ => (none : Option (List String)))).1
        = Except.error (OFError.simple authMessage)) := by
  obtain ⟨h1, h2, h3, h4, h5, h6, h7, h8, h9, h10⟩ :=
    classification_precedence "echo" "connection refused" ()
      (fun _ : Unit => (none : Option (List String)))
      (fun _ : Unit => (([] : List String), false))
      (fun _ : Unit => (none : Option (List String)))
  exact ⟨h1, h9 rfl, h10 rfl⟩

/-- Claim C9 (amended): whenever a gateway response is received, the body
stream is closed on every exit path; it is additionally fully drained on
every path of `InvokeSync`, `GetNamespaces` and `GetFunctions`, drained only
on the status-200 path of `HasNamespaceSupport`, and never drained by
`InvokeAsync`; on transport failure (cancellation included) no response body
reaches the client. -/
theorem response_body_release {β γ : Type} (name cause : String) (res : Response β)
    (unmarshalStrings : β → Option (List String))
    (unmarshalNamespaces : β → List String × Bool)
    (unmarshalFunctions : β → Option (List γ)) :
    ((InvokeSync name (Except.ok res)).2 = some { drained := true, closed := true })
    ∧ ((InvokeAsync name (Except.ok res)).2 = some { drained := false, closed := true })
    ∧ ((HasNamespaceSupport (Except.ok res) unmarshalStrings).2
        = some { drained := decide (res.statusCode = 200), closed := true })
    ∧ ((GetNamespaces (Except.ok res) unmarshalNamespaces).2
        = some { drained := true, closed := true })
    ∧ ((GetFunctions (Except.ok res) unmarshalFunctions).2
        = some { drained := true, closed := true })
    ∧ ((InvokeSync name (Except.error cause : Except String (Response β))).2 = none)
    ∧ ((InvokeAsync name (Except.error cause : Except String (Response β))).2 = none)
    ∧ ((HasNamespaceSupport (Except.error cause) unmarshalStrings).2 = none)
    ∧ ((GetNamespaces (Except.error cause) unmarshalNamespaces).2 = none)
    ∧ ((GetFunctions (Except.error cause) unmarshalFunctions).2 = none) := by
  refine ⟨?_, ?_, ?_, ?_, ?_, rfl, rfl, rfl, rfl, rfl⟩
  · simp only [InvokeSync]
    split_ifs <;> rfl
  · simp only [InvokeAsync]
    split_ifs <;> rfl
  · simp only [HasNamespaceSupport]
    split_ifs with h1 h2 <;> simp [h1]
  · simp only [GetNamespaces]
    split_ifs <;> rfl
  · simp only [GetFunctions]
    rcases unmarshalFunctions res.body with _ | xs
    · simp only
      split_ifs <;> rfl
    · rfl

/-- Claim C9 counterexample: `InvokeAsync` on an accepted 202 response
closes the response body but never drains it, so the body stream is not
"fully drained and closed" on every exit path of every operation. -/
theorem InvokeAsync_not_drained_counterexample :
    ¬ ((InvokeAsync "echo" (Except.ok { statusCode := 202, body := () })).2
        = some { drained := true, closed := true }) := by decide

/-- The fields of an `http.Request` the client mutates after construction. -/
structure HttpRequest where
  url : RequestURL
  headers : List (String × String)
  basicAuth : Option (String × String)
deriving DecidableEq, Repr

/-- Go `req.Header.Set`: replace any existing value for the key. -/
def setHeader (req : HttpRequest) (key value : String) : HttpRequest :=
  { req with headers := (key, value) :: req.headers.filter (fun kv => kv.1 != key) }

/-- Go `req.SetBasicAuth`. -/
def setBasicAuth (req : HttpRequest) (user password : String) : HttpRequest :=
  { req with basicAuth := some (user, password) }

/-- Result of running a Go function whose body may dereference a nil
pointer: `crash` models the run-time panic, `ok` a normal return. -/
inductive GoResult (α : Type) where
  | crash : GoResult α
  | ok : α → GoResult α
deriving DecidableEq, Repr

/-- Modelled from the spec: `types2.OpenFaaSInvocation` of `pkg/types`,
which is not under `src/` — an optional payload byte sequence plus
content-type and content-encoding strings (section 3 of the design). -/
structure OpenFaaSInvocation where
  message : Option (List Nat)
  contentType : String
  contentEncoding : String
deriving DecidableEq, Repr

/-- `Client.InvokeSync` in full.  `http.NewRequestWithContext` is external
and its error is discarded (`req, _ :=` at line 104), modelled by the
`Option HttpRequest` argument; when construction failed the nil request is
dereferenced by `req.Header.Set`, a run-time panic.  Otherwise the content
headers are set, Basic Auth attached when credentials are configured, and
the response phase runs on the transport's outcome for the finished
request. -/
def InvokeSyncFull {β : Type} (newRequest : Option HttpRequest) (name : String)
    (invocation : OpenFaaSInvocation) (credentials : Option (String × String))
    (transport : HttpRequest → Except String (Response β)) :
    GoResult (Except OFError β × Option BodyUsage) :=
  match newRequest with
  | none => GoResult.crash
  | some req =>
      let req := setHeader req "Content-Type" invocation.contentType
      let req := setHeader req "Content-Encoding" invocation.contentEncoding
      let req := match credentials with
        | some (user, password) => setBasicAuth req user password
        | none => req
      GoResult.ok (InvokeSync name (transport req))

/-- `Client.InvokeAsync` in full, with the same discarded construction error
and nil dereference as `InvokeSyncFull`. -/
def InvokeAsyncFull {β : Type} (newRequest : Option HttpRequest) (name : String)
    (invocation : OpenFaaSInvocation) (credentials : Option (String × String))
    (transport : HttpRequest → Except String (Response β)) :
    GoResult (Except OFError Bool × Option BodyUsage) :=
  match newRequest with
  | none => GoResult.crash
  | some req =>
      let req := setHeader req "Content-Type" invocation.contentType
      let req := setHeader req "Content-Encoding" invocation.contentEncoding
      let req := match credentials with
        | some (user, password) => setBasicAuth req user password
        | none => req
      GoResult.ok (InvokeAsync name (transport req))

/-- `Client.HasNamespaceSupport` in full: the construction error is
discarded (line 188) and a nil request is dereferenced by `SetBasicAuth` or
inside `client.Do`, a run-time panic either way. -/
def HasNamespaceSupportFull {β : Type} (newRequest : Option HttpRequest)
    (credentials : Option (String × String))
    (unmarshalStrings : β → Option (List String))
    (transport : HttpRequest → Except String (Response β)) :
    GoResult (Except OFError Bool × Option BodyUsage) :=
  match newRequest with
  | none => GoResult.crash
  | some req =>
      let req := match credentials with
        | some (user, password) => setBasicAuth req user password
        | none => req
      GoResult.ok (HasNamespaceSupport (transport req) unmarshalStrings)

/-- `Client.GetNamespaces` in full, same construction handling. -/
def GetNamespacesFull {β : Type} (newRequest : Option HttpRequest)
    (credentials : Option (String × String))
    (unmarshalStrings : β → List String × Bool)
    (transport : HttpRequest → Except String (Response β)) :
    GoResult (Except OFError (List String) × Option BodyUsage) :=
  match newRequest with
  | none => GoResult.crash
  | some req =>
      let req := match credentials with
        | some (user, password) => setBasicAuth req user password
        | none => req
      GoResult.ok (GetNamespaces (transport req) unmarshalStrings)

/-- `Client.GetFunctions` in full: construction error discarded (line 252),
nil request dereferenced by `SetBasicAuth`, `req.URL.Query()` or
`client.Do`; otherwise the namespace query is attached per the source and
the response phase runs. -/
def GetFunctionsFull {β γ : Type} (newRequest : Option HttpRequest)
    (credentials : Option (String × String)) (nameSpace : String)
    (unmarshalFunctions : β → Option (List γ))
    (transport : HttpRequest → Except String (Response β)) :
    GoResult (Except OFError (List γ) × Option BodyUsage) :=
  match newRequest with
  | none => GoResult.crash
  | some req =>
      let req := match credentials with
        | some (user, password) => setBasicAuth req user password
        | none => req
      let req := { req with url := attachNamespace req.url nameSpace }
      GoResult.ok (GetFunctions (transport req) unmarshalFunctions)

/-- Claim C10: every operation discards the error of HTTP request
construction; when construction fails the subsequent use of the nil request
crashes the call instead of returning a classified error, and under the
precondition that a request was constructed every operation returns
normally. -/
theorem request_construction_failure_crashes {β γ : Type} (name nameSpace : String)
    (invocation : OpenFaaSInvocation) (credentials : Option (String × String))
    (unmarshalStrings : β → Option (List String))
    (unmarshalNamespaces : β → List String × Bool)
    (unmarshalFunctions : β → Option (List γ))
    (transport : HttpRequest → Except String (Response β)) (req : HttpRequest) :
    (InvokeSyncFull none name invocation credentials transport = GoResult.crash)
    ∧ (InvokeAsyncFull none name invocation credentials transport = GoResult.crash)
    ∧ (HasNamespaceSupportFull none credentials unmarshalStrings transport = GoResult.crash)
    ∧ (GetNamespacesFull none credentials unmarshalNamespaces transport = GoResult.crash)
    ∧ (GetFunctionsFull none credentials nameSpace unmarshalFunctions transport
        = GoResult.crash)
    ∧ (∃ r, InvokeSyncFull (some req) name invocation credentials transport = GoResult.ok r)
    ∧ (∃ r, InvokeAsyncFull (some req) name invocation credentials transport = GoResult.ok r)
    ∧ (∃ r, HasNamespaceSupportFull (some req) credentials unmarshalStrings transport
        = GoResult.ok r)
    ∧ (∃ r, GetNamespacesFull (some req) credentials unmarshalNamespaces transport
        = GoResult.ok r)
    ∧ (∃ r, GetFunctionsFull (some req) credentials nameSpace unmarshalFunctions transport
        = GoResult.ok r) :=
  ⟨rfl, rfl, rfl, rfl, rfl, ⟨_, rfl⟩, ⟨_, rfl⟩, ⟨_, rfl⟩, ⟨_, rfl⟩, ⟨_, rfl⟩⟩
